import Mathlib

/-!
Verification development for the health-report scoring core
(`health_report_module.py`) and the structured-response extractor
(`app.py`) of the health-emo-cat-guide repository.

The Python functions are shallowly embedded: raw measurement values are a
closed tagged union, Python `dict`s become association lists (iteration in
insertion order, as in Python), Python numbers become rationals, and code
that can raise an uncaught exception is embedded as an `Option`-valued
function where `none` marks the exception.
-/

namespace HealthGuide

/-- A raw measurement value as it arrives from the parsed report JSON:
a number, a string, or JSON null (Python `None`). -/
inductive Raw where
  | num (q : ℚ)
  | str (s : String)
  | null
deriving DecidableEq

/-- Rendering of a raw value inside a warning message (Python f-string
interpolation; numeric rendering is modelled via the rational's canonical
form). -/
def ratRepr (q : ℚ) : String :=
  if q.den = 1 then toString q.num else toString q.num ++ "/" ++ toString q.den

def rawRepr : Raw → String
  | Raw.num q => ratRepr q
  | Raw.str s => s
  | Raw.null => "None"

/-- Python's `str.strip()` whitespace class. -/
def isSpaceChar (c : Char) : Bool :=
  c = ' ' ∨ c = '\t' ∨ c = '\n' ∨ c = '\r' ∨ c = '\x0b' ∨ c = '\x0c'

def trimList (cs : List Char) : List Char :=
  ((cs.dropWhile isSpaceChar).reverse.dropWhile isSpaceChar).reverse

/-- `str.strip()`. -/
def pyStrip (s : String) : String :=
  String.mk (trimList s.data)

/-- `str.lower()` (ASCII case mapping; the qualitative tokens are ASCII or
case-less). -/
def pyLower (s : String) : String :=
  String.mk (s.data.map Char.toLower)

/-- `str.split(sep)` for a non-empty separator: non-overlapping
left-to-right splitting that keeps empty pieces.  Fuel-indexed structural
recursion; the initial fuel (the string length) always suffices. -/
def splitAux (pat : List Char) : ℕ → List Char → List Char → List (List Char)
  | _, acc, [] => [acc.reverse]
  | 0, acc, cs => [acc.reverse ++ cs]
  | f + 1, acc, c :: rest =>
    if List.isPrefixOf pat (c :: rest) then
      acc.reverse :: splitAux pat f [] ((c :: rest).drop pat.length)
    else splitAux pat f (c :: acc) rest

def pySplit (s pat : String) : List String :=
  (splitAux pat.data s.data.length [] s.data).map String.mk

/-- `str.replace(pat, "")`: removal of every occurrence. -/
def removeAux (pat : List Char) : ℕ → List Char → List Char
  | _, [] => []
  | 0, cs => cs
  | f + 1, c :: rest =>
    if List.isPrefixOf pat (c :: rest) then removeAux pat f ((c :: rest).drop pat.length)
    else c :: removeAux pat f rest

def pyRemove (s pat : String) : String :=
  String.mk (removeAux pat.data s.data.length s.data)

/-- List of digit characters to a natural number. -/
def digitsToNat (ds : List Char) : ℕ :=
  ds.foldl (fun a c => a * 10 + (c.toNat - 48)) 0

def spanDigits (cs : List Char) : List Char × List Char :=
  cs.span (·.isDigit)

/-- Assemble a decimal literal `[-] ip . fp [e exp]` into a rational:
sign * (ip·10^|fp| + fp) · 10^(exp - |fp|). -/
def mkQ (neg : Bool) (ip fp : List Char) (e : ℤ) : ℚ :=
  let m : ℤ := (digitsToNat ip * 10 ^ fp.length + digitsToNat fp : ℕ)
  let sgn : ℤ := if neg then -1 else 1
  let sh : ℤ := e - fp.length
  if 0 ≤ sh then Rat.divInt (sgn * m * ((10 ^ sh.toNat : ℕ) : ℤ)) 1
  else Rat.divInt (sgn * m) ((10 ^ (-sh).toNat : ℕ) : ℤ)

/-- Model of Python `float(s)` restricted to finite decimal literals
(optional sign, digits, optional fraction, optional exponent), returning
`none` where `float` raises `ValueError`.  Python's `inf`/`nan` spellings
and digit-group underscores are outside the modelled fragment; none of the
grading logic or configuration uses them. -/
def pyFloat (s : String) : Option ℚ :=
  let cs := trimList s.data
  let sgnRest : Bool × List Char :=
    match cs with
    | '-' :: r => (true, r)
    | '+' :: r => (false, r)
    | _ => (false, cs)
  let neg := sgnRest.1
  let (ip, cs2) := spanDigits sgnRest.2
  let fpRest : List Char × List Char :=
    match cs2 with
    | '.' :: r => spanDigits r
    | _ => ([], cs2)
  let fp := fpRest.1
  if ip = [] ∧ fp = [] then none
  else
    match fpRest.2 with
    | [] => some (mkQ neg ip fp 0)
    | c :: r =>
      if c = 'e' ∨ c = 'E' then
        let esRest : Bool × List Char :=
          match r with
          | '-' :: rr => (true, rr)
          | '+' :: rr => (false, rr)
          | _ => (false, r)
        let (ed, r2) := spanDigits esRest.2
        if ed = [] ∨ r2 ≠ [] then none
        else some (mkQ neg ip fp (if esRest.1 then -(digitsToNat ed : ℤ) else (digitsToNat ed : ℤ)))
      else none

/-- Embedding of the inner helper `get_numeric_value` of
`calculate_health_score`: numbers pass through, a closed token set maps to
comparable ranks, anything else is given to `float`, and every failure is
`None` (never an exception). -/
def get_numeric_value : Raw → Option ℚ
  | Raw.num q => some q
  | Raw.null => none
  | Raw.str s =>
    let vl := pyLower (pyStrip s)
    if vl = "負" ∨ vl = "negative" ∨ vl = "(-)" ∨ vl = "-" then some 0
    else if vl = "+/-" ∨ vl = "+" then some 1
    else if vl = "++" ∨ vl = "+++" then some 2
    else if vl = "++++" then some 3
    else pyFloat s

/-- Python's `pat in s` substring test (non-empty pattern), via split. -/
def strContains (s pat : String) : Bool :=
  (pySplit s pat).length ≥ 2

/-- One entry of the health-standards configuration:
display name, generic reference expression, optional per-gender reference
expressions, and optional per-gender ordered grade bands. -/
structure StandardEntry where
  name : Option String
  refValue : Option String
  refValueMale : Option String
  refValueFemale : Option String
  gradesMale : List (String × ℚ × ℚ)
  gradesFemale : List (String × ℚ × ℚ)
deriving DecidableEq

/-- The standards store: canonical key to entry, as a finite association
list (alias resolution happens upstream of `calculate_health_score`). -/
def Standards := List (String × StandardEntry)

/-- `gender.lower() if gender in ['male', 'female'] else 'female'`. -/
def genderKey : Option String → String
  | some g => if g = "male" ∨ g = "female" then g else "female"
  | none => "female"

/-- Selection of `reference_value_{gender}` when that key is present, else
`reference_value` (defaulting to the empty string), then `.strip()`. -/
def refFor (e : StandardEntry) (gk : String) : String :=
  pyStrip
    (match (if gk = "male" then e.refValueMale else e.refValueFemale) with
     | some r => r
     | none => e.refValue.getD "")

/-- `standard_info.get('grades', {}).get(gender_key, {})` as an ordered
band list. -/
def bandsFor (e : StandardEntry) (gk : String) : List (String × ℚ × ℚ) :=
  if gk = "male" then e.gradesMale else e.gradesFemale

def dispName (e : StandardEntry) (key : String) : String :=
  e.name.getD key

/-- The generic reference-expression check of `calculate_health_score`:
a hyphen range `lower-upper`, a `<x` bound, or a `>x` bound, each deciding
only in/out of range with out-of-range defaulting to grade `"A"`.
The outer `none` marks the uncaught `ValueError` the Python raises when
`lower, upper = map(float, ref_value_str.split("-"))` (or the `<`/`>`
parse) fails; the inner option is the grade. -/
def genericGrade (refStr : String) (nv : ℚ) : Option (Option String) :=
  if strContains refStr "-" then
    match pySplit refStr "-" with
    | [a, b] =>
      match pyFloat a, pyFloat b with
      | some lo, some hi => some (if lo ≤ nv ∧ nv ≤ hi then none else some "A")
      | _, _ => none
    | _ => none
  else if strContains refStr "<" then
    match pyFloat (pyStrip (pyRemove refStr "<")) with
    | some up => some (if up ≤ nv then some "A" else none)
    | none => none
  else if strContains refStr ">" then
    match pyFloat (pyStrip (pyRemove refStr ">")) with
    | some lo => some (if nv ≤ lo then some "A" else none)
    | none => none
  else some none

/-- First declared gender band whose inclusive bounds contain the value. -/
def firstBand : List (String × ℚ × ℚ) → ℚ → Option String
  | [], _ => none
  | (g, lo, hi) :: rest, nv =>
    if lo ≤ nv ∧ nv ≤ hi then some g else firstBand rest nv

/-- The hard-coded legacy three-tier thresholds used when an entry has no
gender-specific grade bands and the generic check produced no grade. -/
def legacyGrade (key : String) (nv : ℚ) : Option String :=
  if key = "glucose" then
    if 100 ≤ nv then
      some (if nv ≤ 126 then "A" else if nv ≤ 180 then "B" else "C")
    else none
  else if key = "ldl_cholesterol" then
    if 130 ≤ nv then
      some (if nv ≤ 160 then "A" else if nv ≤ 200 then "B" else "C")
    else none
  else if key = "bmi" then
    if 24 ≤ nv then
      some (if nv < 27 then "A" else if nv < 30 then "B" else "C")
    else none
  else if key = "alt" then
    if 41 ≤ nv then
      some (if nv ≤ 80 then "A" else if nv ≤ 200 then "B" else "C")
    else none
  else if key = "ast" then
    if 31 ≤ nv then
      some (if nv ≤ 80 then "A" else if nv ≤ 200 then "B" else "C")
    else none
  else if key = "creatinine" then
    if (13 : ℚ) / 10 ≤ nv then
      some (if nv ≤ 2 then "A" else if nv ≤ 3 then "B" else "C")
    else none
  else if key = "uric_acid" then
    if 7 ≤ nv then
      some (if nv ≤ 8 then "A" else if nv ≤ 10 then "B" else "C")
    else none
  else if key = "urine_protein" then
    if nv = 1 then some "A" else if nv = 2 then some "B" else if nv = 3 then some "C" else none
  else none

/-- Deduction and warning for a final grade: 5/10/15 for `"A"`/`"B"`/`"C"`
with one warning naming the display name, grade and raw value; any other
grade (including none) deducts nothing and warns nothing. -/
def gradeOut (dn : String) (v : Raw) : Option String → ℤ × List String
  | some g =>
    if g = "A" then (5, [dn ++ " 數值為 A 級 (" ++ rawRepr v ++ ")"])
    else if g = "B" then (10, [dn ++ " 數值為 B 級 (" ++ rawRepr v ++ ")"])
    else if g = "C" then (15, [dn ++ " 數值為 C 級 (" ++ rawRepr v ++ ")"])
    else (0, [])
  | none => (0, [])

def optOr : Option String → Option String → Option String
  | some g, _ => some g
  | none, g0 => g0

/-- The final grade of the quantitative path: the grade bands for the
caller's gender override the generic grade when one of them matches, the
generic grade survives when none does, and the legacy fallback applies
only when the entry has no bands for this gender and the generic check
yielded no grade. -/
def pickGrade (e : StandardEntry) (gk : String) (key : String) (nv : ℚ)
    (g0 : Option String) : Option String :=
  if (bandsFor e gk).isEmpty then
    match g0 with
    | some g => some g
    | none => legacyGrade key nv
  else optOr (firstBand (bandsFor e gk) nv) g0

/-- Processing of one `(key, value)` item of the main loop of
`calculate_health_score`: the pair (deduction, warnings) it contributes,
or `none` for the uncaught exception from a malformed reference parse. -/
def processMetric (std : Standards) (gk : String) (kv : String × Raw) :
    Option (ℤ × List String) :=
  match List.lookup kv.1 std, kv.2 with
  | none, _ => some (0, [])
  | some _, Raw.null => some (0, [])
  | some e, v =>
    if strContains (refFor e gk) "(-)" ∧ v ≠ Raw.str "(-)" then
      some (5, [dispName e kv.1 ++ " 超出正常範圍 (" ++ rawRepr v ++ ")"])
    else
      match get_numeric_value v with
      | none => some (0, [])
      | some nv =>
        match genericGrade (refFor e gk) nv with
        | none => none
        | some g0 => some (gradeOut (dispName e kv.1) v (pickGrade e gk kv.1 nv g0))

/-- The whole per-metric loop, in key order, summing deductions and
appending warnings; the exception aborts the call. -/
def processAll (std : Standards) (gk : String) :
    List (String × Raw) → Option (ℤ × List String)
  | [] => some (0, [])
  | kv :: rest =>
    match processMetric std gk kv with
    | none => none
    | some dw =>
      match processAll std gk rest with
      | none => none
      | some rw => some (dw.1 + rw.1, dw.2 ++ rw.2)

/-- `get_numeric_value(vital_stats.get(k))`: dictionary lookup defaulting
to `None`, then normalization. -/
def numOf (vs : List (String × Raw)) (k : String) : Option ℚ :=
  get_numeric_value ((List.lookup k vs).getD Raw.null)

/-- The blood-pressure evaluator on the two (already normalized) inputs:
both present picks the single most severe tier over either bound; one
present applies that value's own thresholds with its own wording. -/
def bpCore : Option ℚ → Option ℚ → ℤ × List String
  | some s, some d =>
    if 160 ≤ s ∨ 100 ≤ d then
      (15, ["血壓數值為 C 級 (" ++ ratRepr s ++ "/" ++ ratRepr d ++ " mmHg)"])
    else if 140 ≤ s ∨ 90 ≤ d then
      (10, ["血壓數值為 B 級 (" ++ ratRepr s ++ "/" ++ ratRepr d ++ " mmHg)"])
    else if 130 ≤ s ∨ 80 ≤ d then
      (5, ["血壓數值為 A 級 (" ++ ratRepr s ++ "/" ++ ratRepr d ++ " mmHg)"])
    else (0, [])
  | some s, none =>
    if 160 ≤ s then (15, ["血壓收縮壓為 C 級 (" ++ ratRepr s ++ " mmHg)"])
    else if 140 ≤ s then (10, ["血壓收縮壓為 B 級 (" ++ ratRepr s ++ " mmHg)"])
    else if 130 ≤ s then (5, ["血壓收縮壓為 A 級 (" ++ ratRepr s ++ " mmHg)"])
    else (0, [])
  | none, some d =>
    if 100 ≤ d then (15, ["血壓舒張壓為 C 級 (" ++ ratRepr d ++ " mmHg)"])
    else if 90 ≤ d then (10, ["血壓舒張壓為 B 級 (" ++ ratRepr d ++ " mmHg)"])
    else if 80 ≤ d then (5, ["血壓舒張壓為 A 級 (" ++ ratRepr d ++ " mmHg)"])
    else (0, [])
  | none, none => (0, [])

/-- Truth of `x is not None and t <= x` for an optional normalized value. -/
def geCond (o : Option ℚ) (t : ℚ) : Bool :=
  match o with
  | some x => decide (t ≤ x)
  | none => false

/-- The compound "multiple elevated risk factors" count: glucose ≥ 100,
LDL ≥ 130, and (systolic ≥ 130 or diastolic ≥ 80) each add one,
independently of the blood-pressure tier. -/
def hcOf (vs : List (String × Raw)) : ℕ :=
  (if geCond (numOf vs "glucose") 100 then 1 else 0) +
  (if geCond (numOf vs "ldl_cholesterol") 130 then 1 else 0) +
  (if geCond (numOf vs "blood_pressure_systolic") 130 ∨
      geCond (numOf vs "blood_pressure_diastolic") 80 then 1 else 0)

/-- The compound-risk extra deduction and its single summary warning. -/
def compoundEval (vs : List (String × Raw)) : ℤ × List String :=
  if hcOf vs = 1 then (5, ["符合「一高」條件，額外扣 5 分。"])
  else if hcOf vs = 2 then (10, ["符合「兩高」條件，額外扣 10 分。"])
  else if hcOf vs = 3 then (15, ["符合「三高」條件，額外扣 15 分。"])
  else (0, [])

/-- `if score < 1: score = 1`. -/
def clampScore (r : ℤ) : ℤ :=
  if r < 1 then 1 else r

/-- The blood-pressure evaluation of a vital-stats mapping. -/
def bpEval (vs : List (String × Raw)) : ℤ × List String :=
  bpCore (numOf vs "blood_pressure_systolic") (numOf vs "blood_pressure_diastolic")

/-- Embedding of `calculate_health_score(vital_stats, gender)`:
the per-metric loop, then the blood-pressure evaluator, then the
compound-risk deduction, then the floor-1 clamp.  `none` is the uncaught
`ValueError` raised while parsing a reference expression. -/
def calculate_health_score (std : Standards) (vital_stats : List (String × Raw))
    (gender : Option String) : Option (ℤ × List String) :=
  match processAll std (genderKey gender) vital_stats with
  | none => none
  | some dw =>
    some (clampScore (100 - dw.1 - (bpEval vital_stats).1 - (compoundEval vital_stats).1),
          dw.2 ++ (bpEval vital_stats).2 ++ (compoundEval vital_stats).2)

/-- Modelled from the spec: the repository's `health_standards.json` is
not part of the analysed sources, so a representative store is built from
the spec's schema and recognized-key list — numeric metrics carry a
generic reference expression, the qualitative markers (hepatitis surface
antigen, urine occult blood) carry the expected-negative marker `(-)`
that the qualitative branch of `calculate_health_score` tests for. -/
def modelStandards : Standards :=
  [("glucose", ⟨some "血糖", some "70-100", none, none, [], []⟩),
   ("ldl_cholesterol", ⟨some "低密度脂蛋白膽固醇", some "<130", none, none, [], []⟩),
   ("blood_pressure_systolic", ⟨some "收縮壓", some "90-130", none, none, [], []⟩),
   ("blood_pressure_diastolic", ⟨some "舒張壓", some "60-80", none, none, [], []⟩),
   ("HBsAg", ⟨some "B型肝炎表面抗原", some "(-)", none, none, [], []⟩),
   ("urine_ob", ⟨some "尿潛血", some "(-)", none, none, [], []⟩)]

/-! ### The response extractor (`extract_json_from_response` in `app.py`) -/

/-- JSON values, as produced by Python's `json.loads`. -/
inductive Json where
  | null
  | bool (b : Bool)
  | num (q : ℚ)
  | str (s : String)
  | arr (xs : List Json)
  | obj (kvs : List (String × Json))

/-- JSON whitespace (the characters `json.loads` skips between tokens). -/
def skipWs (cs : List Char) : List Char :=
  cs.dropWhile (fun c => c = ' ' ∨ c = '\t' ∨ c = '\n' ∨ c = '\r')

/-- Match a literal keyword and return the remainder. -/
def dropLit (p : String) (cs : List Char) : Option (List Char) :=
  if List.isPrefixOf p.toList cs then some (cs.drop p.toList.length) else none

/-- JSON string body after the opening quote: plain characters and the
single-character escapes; `\\u` escapes are outside the modelled fragment
(no caller of the extractor feeds them). -/
def escChar : Char → Option Char
  | '\"' => some '\"'
  | '\\' => some '\\'
  | '/' => some '/'
  | 'n' => some '\n'
  | 't' => some '\t'
  | 'r' => some '\r'
  | 'b' => some (Char.ofNat 8)
  | 'f' => some (Char.ofNat 12)
  | _ => none

def parseStrBody : List Char → Option (List Char × List Char)
  | [] => none
  | '\"' :: rest => some ([], rest)
  | '\\' :: e :: r2 =>
    match escChar e with
    | none => none
    | some ec =>
      match parseStrBody r2 with
      | some (ds, r3) => some (ec :: ds, r3)
      | none => none
  | '\\' :: [] => none
  | c :: rest =>
    match parseStrBody rest with
    | some (ds, r3) => some (c :: ds, r3)
    | none => none

/-- JSON number: `-? digits (. digits)? ([eE] [+-]? digits)?`.
(Leading-zero strictness of `json.loads` is not modelled; no claim input
depends on it.) -/
def parseNum (cs : List Char) : Option (ℚ × List Char) :=
  let sgnRest : Bool × List Char :=
    match cs with
    | '-' :: r => (true, r)
    | _ => (false, cs)
  let (ip, cs2) := spanDigits sgnRest.2
  if ip = [] then none
  else
    let fpRest : Option (List Char × List Char) :=
      match cs2 with
      | '.' :: r =>
        let s := spanDigits r
        if s.1 = [] then none else some s
      | _ => some ([], cs2)
    match fpRest with
    | none => none
    | some (fp, cs3) =>
      match cs3 with
      | 'e' :: r => parseExp sgnRest.1 ip fp r
      | 'E' :: r => parseExp sgnRest.1 ip fp r
      | _ => some (mkQ sgnRest.1 ip fp 0, cs3)
where
  parseExp (neg : Bool) (ip fp : List Char) (r : List Char) : Option (ℚ × List Char) :=
    let esRest : Bool × List Char :=
      match r with
      | '-' :: rr => (true, rr)
      | '+' :: rr => (false, rr)
      | _ => (false, r)
    let (ed, r2) := spanDigits esRest.2
    if ed = [] then none
    else some (mkQ neg ip fp (if esRest.1 then -(digitsToNat ed : ℤ) else (digitsToNat ed : ℤ)), r2)

/-- Recursive-descent JSON value parser (fuel-indexed; the fuel passed by
`jsonLoads` strictly dominates the recursion depth).  After a comma, the
remaining members/items are parsed by re-entering the object/array case,
which yields the same grammar as `json.loads` including its rejection of
trailing commas. -/
def parseVal : ℕ → List Char → Option (Json × List Char)
  | 0, _ => none
  | _ + 1, [] => none
  | fuel + 1, c :: rest =>
    if c = 'n' then
      match dropLit "ull" rest with
      | some r => some (Json.null, r)
      | none => none
    else if c = 't' then
      match dropLit "rue" rest with
      | some r => some (Json.bool true, r)
      | none => none
    else if c = 'f' then
      match dropLit "alse" rest with
      | some r => some (Json.bool false, r)
      | none => none
    else if c = '\"' then
      match parseStrBody rest with
      | some (ds, r) => some (Json.str (String.mk ds), r)
      | none => none
    else if c = '-' ∨ c.isDigit then
      match parseNum (c :: rest) with
      | some (q, r) => some (Json.num q, r)
      | none => none
    else if c = '\x7b' then
      match skipWs rest with
      | '\x7d' :: r1 => some (Json.obj [], r1)
      | '\"' :: rs =>
        match parseStrBody rs with
        | none => none
        | some (kcs, r1) =>
          match skipWs r1 with
          | ':' :: r2 =>
            match parseVal fuel (skipWs r2) with
            | none => none
            | some (v, r3) =>
              match skipWs r3 with
              | ',' :: r4 =>
                match skipWs r4 with
                | '\"' :: _ =>
                  match parseVal fuel ('\x7b' :: skipWs r4) with
                  | some (Json.obj ms, r5) => some (Json.obj ((String.mk kcs, v) :: ms), r5)
                  | _ => none
                | _ => none
              | '\x7d' :: r4 => some (Json.obj [(String.mk kcs, v)], r4)
              | _ => none
          | _ => none
      | _ => none
    else if c = '[' then
      match skipWs rest with
      | ']' :: r1 => some (Json.arr [], r1)
      | cs1 =>
        match parseVal fuel cs1 with
        | none => none
        | some (v, r3) =>
          match skipWs r3 with
          | ',' :: r4 =>
            match skipWs r4 with
            | ']' :: _ => none
            | _ =>
              match parseVal fuel ('[' :: skipWs r4) with
              | some (Json.arr xs, r5) => some (Json.arr (v :: xs), r5)
              | _ => none
          | ']' :: r4 => some (Json.arr [v], r4)
          | _ => none
    else none

/-- Model of `json.loads(s)`: parse one value with surrounding whitespace
and reject any trailing data. -/
def jsonLoads (s : String) : Option Json :=
  let cs := s.toList
  match parseVal (2 * cs.length + 8) (skipWs cs) with
  | some (j, rest) => if skipWs rest = [] then some j else none
  | none => none

/-- Python's `\\s` character class (ASCII part; the claim inputs use only
spaces and newlines). -/
def wsF (c : Char) : Bool :=
  c = ' ' ∨ c = '\t' ∨ c = '\n' ∨ c = '\r' ∨ c = '\x0b' ∨ c = '\x0c'

def skipWsF (cs : List Char) : List Char :=
  cs.dropWhile wsF

/-- The lazy `(\{.*?\})` of the fenced-block regex: the shortest content
whose closing brace is followed by `\\s*` and three backticks. -/
def fenceClose : List Char → List Char → Option (List Char)
  | _, [] => none
  | acc, c :: rest =>
    if c = '\x7d' ∧ List.isPrefixOf ("```").toList (skipWsF rest) then some acc.reverse
    else fenceClose (c :: acc) rest

/-- Attempt of the full fenced-block pattern at one position. -/
def fenceFrom (cs : List Char) : Option String :=
  if List.isPrefixOf ("```json").toList cs then
    match skipWsF (cs.drop 7) with
    | '\x7b' :: r2 =>
      match fenceClose [] r2 with
      | some content => some (String.mk ('\x7b' :: content ++ ['\x7d']))
      | none => none
    | _ => none
  else none

/-- `re.search` of the pattern over the text: the leftmost position where
the whole fenced-block pattern matches, returning the captured group. -/
def fenceScan : List Char → Option String
  | [] => none
  | c :: rest =>
    match fenceFrom (c :: rest) with
    | some g => some g
    | none => fenceScan rest

/-- The deterministic automaton equivalent to the brace-span regex
`\{[^\x7b\x7d]*(?:\{[^\x7b\x7d]*\}[^\x7b\x7d]*)*\}` at one position:
one level of inner braces is tolerated, a second level fails. -/
def braceScan : ℕ → Bool → List Char → List Char → Option (List Char)
  | 0, _, _, _ => none
  | _ + 1, _, _, [] => none
  | f + 1, inner, acc, c :: rest =>
    if inner then
      if c = '\x7d' then braceScan f false (c :: acc) rest
      else if c = '\x7b' then none
      else braceScan f true (c :: acc) rest
    else
      if c = '\x7d' then some (c :: acc).reverse
      else if c = '\x7b' then braceScan f true (c :: acc) rest
      else braceScan f false (c :: acc) rest

def braceFrom : List Char → Option (List Char)
  | '\x7b' :: rest => braceScan (rest.length + 1) false ['\x7b'] rest
  | _ => none

/-- Leftmost brace span matched by the tolerant brace regex. -/
def braceSearch : List Char → Option (List Char)
  | [] => none
  | c :: rest =>
    match braceFrom (c :: rest) with
    | some g => some g
    | none => braceSearch rest

/-- Third strategy: parse the first tolerant brace span, if any. -/
def braceStep (text : String) : Option Json :=
  match braceSearch text.toList with
  | some span => jsonLoads (String.mk span)
  | none => none

/-- Embedding of `extract_json_from_response(text)`: whole-text parse,
then the `\x60\x60\x60json`-fenced block, then the first brace span; every
failure falls through and an overall failure is `None`. -/
def extract_json_from_response (text : String) : Option Json :=
  if text = "" then none
  else
    match jsonLoads text with
    | some j => some j
    | none =>
      match fenceScan text.toList with
      | some inner =>
        match jsonLoads inner with
        | some j => some j
        | none => braceStep text
      | none => braceStep text

/-- A store with a metric whose generic range is `0-10` but whose female
grade bands cover only `[20, 30]`: used to probe what happens when a value
falls in no gender band. -/
def c2Store : Standards :=
  [("mx", ⟨none, some "0-10", none, none, [], [("A", 20, 30)]⟩)]

/-- A store carrying just the glucose and LDL entries, for exercising the
compound-risk stacking example in isolation. -/
def c6Store : Standards :=
  [("glucose", ⟨some "血糖", some "70-100", none, none, [], []⟩),
   ("ldl_cholesterol", ⟨some "低密度脂蛋白膽固醇", some "<130", none, none, [], []⟩)]

/-! ### Helper lemmas -/

theorem lookup_append (l1 l2 : List (String × Raw)) (a : String) :
    List.lookup a (l1 ++ l2) =
      match List.lookup a l1 with
      | some x => some x
      | none => List.lookup a l2 := by
  induction l1 with
  | nil => simp [List.lookup]
  | cons kv rest ih =>
    rcases kv with ⟨k, v⟩
    by_cases h : a = k
    · subst h; simp [List.lookup]
    · have hb : (a == k) = false := by simp [h]
      simp [List.lookup, hb, ih]

theorem lookup_snoc_ne (vs : List (String × Raw)) (k k' : String) (v : Raw)
    (h : k' ≠ k) : List.lookup k' (vs ++ [(k, v)]) = List.lookup k' vs := by
  rw [lookup_append]
  cases hv : List.lookup k' vs with
  | some x => rfl
  | none =>
    have hb : (k' == k) = false := by simp [h]
    simp [List.lookup, hb]

theorem numOf_snoc_ne (vs : List (String × Raw)) (k k' : String) (v : Raw)
    (h : k' ≠ k) : numOf (vs ++ [(k, v)]) k' = numOf vs k' := by
  unfold numOf
  rw [lookup_snoc_ne vs k k' v h]

theorem numOf_fresh (vs : List (String × Raw)) (k : String)
    (h : List.lookup k vs = none) : numOf vs k = none := by
  unfold numOf
  rw [h]
  rfl

theorem numOf_snoc_refines (vs : List (String × Raw)) (k : String) (v : Raw)
    (hfresh : List.lookup k vs = none) (k' : String) :
    numOf (vs ++ [(k, v)]) k' = numOf vs k' ∨ numOf vs k' = none := by
  by_cases h : k' = k
  · subst h
    exact Or.inr (numOf_fresh vs k' hfresh)
  · exact Or.inl (numOf_snoc_ne vs k k' v h)

theorem numOf_snoc_null (vs : List (String × Raw)) (k k' : String) :
    numOf (vs ++ [(k, Raw.null)]) k' = numOf vs k' := by
  by_cases h : k' = k
  · subst h
    unfold numOf
    rw [lookup_append]
    cases hv : List.lookup k' vs with
    | some x => rfl
    | none => simp [List.lookup]
  · exact numOf_snoc_ne vs k k' Raw.null h

theorem gradeOut_inv (dn : String) (v : Raw) (g : Option String) :
    0 ≤ (gradeOut dn v g).1 ∧ ((gradeOut dn v g).1 = 0 ↔ (gradeOut dn v g).2 = []) := by
  cases g with
  | none => simp [gradeOut]
  | some s =>
    simp only [gradeOut]
    split_ifs <;> simp

theorem pm_null (std : Standards) (gk : String) (k : String) :
    processMetric std gk (k, Raw.null) = some (0, []) := by
  unfold processMetric
  cases List.lookup k std <;> rfl

theorem pm_unknown (std : Standards) (gk : String) (k : String) (v : Raw)
    (h : List.lookup k std = none) : processMetric std gk (k, v) = some (0, []) := by
  unfold processMetric
  rw [h]

theorem pm_inv (std : Standards) (gk : String) (kv : String × Raw)
    (dw : ℤ × List String) (h : processMetric std gk kv = some dw) :
    0 ≤ dw.1 ∧ (dw.1 = 0 ↔ dw.2 = []) := by
  unfold processMetric at h
  repeat' split at h
  all_goals try exact Option.noConfusion h
  all_goals injection h with h2
  all_goals subst h2
  all_goals first
    | simp
    | exact gradeOut_inv _ _ _

theorem pa_append (std : Standards) (gk : String) (xs ys : List (String × Raw)) :
    processAll std gk (xs ++ ys) =
      match processAll std gk xs, processAll std gk ys with
      | some a, some b => some (a.1 + b.1, a.2 ++ b.2)
      | _, _ => none := by
  induction xs with
  | nil =>
    simp only [List.nil_append, processAll]
    cases processAll std gk ys <;> simp
  | cons kv rest ih =>
    simp only [List.cons_append, processAll, List.append_eq]
    cases processMetric std gk kv with
    | none => rfl
    | some dw =>
      rw [ih]
      cases processAll std gk rest <;> cases processAll std gk ys <;>
        simp [add_assoc, List.append_assoc]

theorem pa_inv (std : Standards) (gk : String) (vs : List (String × Raw))
    (dw : ℤ × List String) (h : processAll std gk vs = some dw) :
    0 ≤ dw.1 ∧ (dw.1 = 0 ↔ dw.2 = []) := by
  induction vs generalizing dw with
  | nil =>
    simp [processAll] at h
    subst h; simp
  | cons kv rest ih =>
    unfold processAll at h
    cases hpm : processMetric std gk kv with
    | none => rw [hpm] at h; exact absurd h (by simp)
    | some a =>
      rw [hpm] at h
      cases hpa : processAll std gk rest with
      | none => rw [hpa] at h; exact absurd h (by simp)
      | some b =>
        rw [hpa] at h
        simp only [Option.some.injEq] at h
        subst h
        obtain ⟨ha, hwa⟩ := pm_inv std gk kv a hpm
        obtain ⟨hb, hwb⟩ := ih b hpa
        dsimp only
        refine ⟨by omega, ?_, ?_⟩
        · intro h0
          have hz : a.1 = 0 ∧ b.1 = 0 := by omega
          rw [hwa.mp hz.1, hwb.mp hz.2]
          rfl
        · intro h0
          have h2 := List.append_eq_nil.mp h0
          have ha0 := hwa.mpr h2.1
          have hb0 := hwb.mpr h2.2
          omega

theorem bp_inv (o1 o2 : Option ℚ) :
    0 ≤ (bpCore o1 o2).1 ∧ ((bpCore o1 o2).1 = 0 ↔ (bpCore o1 o2).2 = []) := by
  rcases o1 with _ | s <;> rcases o2 with _ | d <;>
    simp only [bpCore] <;> first | (split_ifs <;> simp) | simp

theorem bp_mono_s (os od : Option ℚ) :
    (bpCore none od).1 ≤ (bpCore os od).1 := by
  rcases os with _ | s <;> rcases od with _ | d <;>
    simp only [bpCore] <;> first | (split_ifs <;> simp_all) | omega

theorem bp_mono_d (os od : Option ℚ) :
    (bpCore os none).1 ≤ (bpCore os od).1 := by
  rcases os with _ | s <;> rcases od with _ | d <;>
    simp only [bpCore] <;> first | (split_ifs <;> simp_all) | omega

theorem bp_mono (os od os2 od2 : Option ℚ)
    (hs : os2 = os ∨ os = none) (hd : od2 = od ∨ od = none) :
    (bpCore os od).1 ≤ (bpCore os2 od2).1 := by
  rcases hs with rfl | rfl <;> rcases hd with rfl | rfl
  · exact le_refl _
  · exact bp_mono_d os2 od2
  · exact bp_mono_s os2 od2
  · exact (bp_inv os2 od2).1

theorem hc_le_three (vs : List (String × Raw)) : hcOf vs ≤ 3 := by
  unfold hcOf
  split_ifs <;> omega

theorem comp_fst (vs : List (String × Raw)) :
    (compoundEval vs).1 = 5 * (hcOf vs : ℤ) := by
  unfold compoundEval
  have h3 := hc_le_three vs
  generalize hcOf vs = n at *
  have h4 : n = 0 ∨ n = 1 ∨ n = 2 ∨ n = 3 := by omega
  rcases h4 with rfl | rfl | rfl | rfl <;> norm_num

theorem comp_inv (vs : List (String × Raw)) :
    0 ≤ (compoundEval vs).1 ∧
      ((compoundEval vs).1 = 0 ↔ (compoundEval vs).2 = []) := by
  unfold compoundEval
  split_ifs <;> simp

theorem geCond_mono (o o2 : Option ℚ) (t : ℚ) (h : o2 = o ∨ o = none)
    (hg : geCond o t = true) : geCond o2 t = true := by
  rcases h with rfl | rfl
  · exact hg
  · simp [geCond] at hg

theorem hc_mono (vs ext : List (String × Raw))
    (h : ∀ k', numOf ext k' = numOf vs k' ∨ numOf vs k' = none) :
    hcOf vs ≤ hcOf ext := by
  unfold hcOf
  have m1 : (if geCond (numOf vs "glucose") 100 then 1 else 0) ≤
      (if geCond (numOf ext "glucose") 100 then 1 else 0) := by
    by_cases hb : geCond (numOf vs "glucose") 100 = true
    · rw [if_pos hb, if_pos (geCond_mono _ _ _ (h _) hb)]
    · rw [if_neg hb]; exact Nat.zero_le _
  have m2 : (if geCond (numOf vs "ldl_cholesterol") 130 then 1 else 0) ≤
      (if geCond (numOf ext "ldl_cholesterol") 130 then 1 else 0) := by
    by_cases hb : geCond (numOf vs "ldl_cholesterol") 130 = true
    · rw [if_pos hb, if_pos (geCond_mono _ _ _ (h _) hb)]
    · rw [if_neg hb]; exact Nat.zero_le _
  have m3 : (if geCond (numOf vs "blood_pressure_systolic") 130 ∨
        geCond (numOf vs "blood_pressure_diastolic") 80 then 1 else 0) ≤
      (if geCond (numOf ext "blood_pressure_systolic") 130 ∨
        geCond (numOf ext "blood_pressure_diastolic") 80 then 1 else 0) := by
    by_cases hb : geCond (numOf vs "blood_pressure_systolic") 130 = true ∨
        geCond (numOf vs "blood_pressure_diastolic") 80 = true
    · rw [if_pos hb, if_pos (hb.imp (geCond_mono _ _ _ (h _)) (geCond_mono _ _ _ (h _)))]
    · rw [if_neg hb]; exact Nat.zero_le _
  exact Nat.add_le_add (Nat.add_le_add m1 m2) m3

theorem comp_mono (vs ext : List (String × Raw))
    (h : ∀ k', numOf ext k' = numOf vs k' ∨ numOf vs k' = none) :
    (compoundEval vs).1 ≤ (compoundEval ext).1 := by
  rw [comp_fst, comp_fst]
  have := hc_mono vs ext h
  omega

theorem calc_some (std : Standards) (vs : List (String × Raw)) (g : Option String)
    (dw : ℤ × List String) (h : processAll std (genderKey g) vs = some dw) :
    calculate_health_score std vs g =
      some (clampScore (100 - dw.1 - (bpEval vs).1 - (compoundEval vs).1),
            dw.2 ++ (bpEval vs).2 ++ (compoundEval vs).2) := by
  unfold calculate_health_score
  rw [h]

theorem calc_none (std : Standards) (vs : List (String × Raw)) (g : Option String)
    (h : processAll std (genderKey g) vs = none) :
    calculate_health_score std vs g = none := by
  unfold calculate_health_score
  rw [h]

theorem bpEval_inv (vs : List (String × Raw)) :
    0 ≤ (bpEval vs).1 ∧ ((bpEval vs).1 = 0 ↔ (bpEval vs).2 = []) :=
  bp_inv _ _

/-! ### Claim theorems -/

/-- C1: the claim that `calculate_health_score` always returns a pair with
an integer score in [1, 100] fails on the code: on the vital-stats mapping
`{"HBsAg": "(-)"}` — a routine negative result for a qualitative
expected-negative metric — the Python raises an uncaught `ValueError`
(`float("(")`) while parsing the reference marker `"(-)"` as a numeric
range, because `"(-)"` contains a hyphen; the embedding returns `none`
there.  Whenever the function does return a pair, its score is in
[1, 100]: it starts from 100, only subtracts, and is clamped to 1. -/
theorem C1_range_and_crash :
    calculate_health_score modelStandards [("HBsAg", Raw.str "(-)")] none = none ∧
    ∀ (std : Standards) (vs : List (String × Raw)) (g : Option String)
      (s : ℤ) (w : List String),
      calculate_health_score std vs g = some (s, w) → 1 ≤ s ∧ s ≤ 100 := by
  constructor
  · rfl
  · intro std vs g s w h
    cases hpa : processAll std (genderKey g) vs with
    | none => rw [calc_none _ _ _ hpa] at h; exact Option.noConfusion h
    | some dw =>
      rw [calc_some _ _ _ _ hpa] at h
      simp only [Option.some.injEq, Prod.mk.injEq] at h
      obtain ⟨hs, -⟩ := h
      have h1 := (pa_inv _ _ _ _ hpa).1
      have h2 := (bpEval_inv vs).1
      have h3 := (comp_inv vs).1
      subst hs
      unfold clampScore
      split_ifs <;> omega

/-- C1 witness: a run that does return a pair, with its score inside the
bounds. -/
theorem C1_witness :
    calculate_health_score modelStandards [("glucose", Raw.num 90)] none =
      some (100, []) ∧ 1 ≤ (100 : ℤ) ∧ (100 : ℤ) ≤ 100 :=
  ⟨rfl, C1_range_and_crash.2 modelStandards [("glucose", Raw.num 90)] none 100 [] rfl⟩

/-- C10: whenever `calculate_health_score` returns, the score is 100
exactly when the warnings list is empty — every deduction appends exactly
one warning and warnings appear only with deductions — and the empty
mapping yields `(100, [])` for every gender and store. -/
theorem C10_perfect_iff_silent :
    (∀ (std : Standards) (vs : List (String × Raw)) (g : Option String)
       (s : ℤ) (w : List String),
       calculate_health_score std vs g = some (s, w) → (s = 100 ↔ w = [])) ∧
    ∀ (std : Standards) (g : Option String),
      calculate_health_score std [] g = some (100, []) := by
  constructor
  · intro std vs g s w h
    cases hpa : processAll std (genderKey g) vs with
    | none => rw [calc_none _ _ _ hpa] at h; exact Option.noConfusion h
    | some dw =>
      rw [calc_some _ _ _ _ hpa] at h
      simp only [Option.some.injEq, Prod.mk.injEq] at h
      obtain ⟨hs, hw⟩ := h
      obtain ⟨h1, h1w⟩ := pa_inv _ _ _ _ hpa
      obtain ⟨h2, h2w⟩ := bpEval_inv vs
      obtain ⟨h3, h3w⟩ := comp_inv vs
      subst hs
      subst hw
      constructor
      · intro h100
        have hX : dw.1 = 0 ∧ (bpEval vs).1 = 0 ∧ (compoundEval vs).1 = 0 := by
          unfold clampScore at h100
          split_ifs at h100 <;> omega
        rw [h1w.mp hX.1, h2w.mp hX.2.1, h3w.mp hX.2.2]
        rfl
      · intro hww
        obtain ⟨hw1, hw23⟩ := List.append_eq_nil.mp (List.append_assoc dw.2 _ _ ▸ hww)
        obtain ⟨hw2, hw3⟩ := List.append_eq_nil.mp hw23
        have e1 := h1w.mpr hw1
        have e2 := h2w.mpr hw2
        have e3 := h3w.mpr hw3
        unfold clampScore
        split_ifs <;> omega
  · intro std g
    rfl

/-- C10 witness: the empty mapping returns score 100 with no warnings,
and the equivalence holds there. -/
theorem C10_witness :
    calculate_health_score modelStandards [] (some "male") = some (100, []) ∧
    ((100 : ℤ) = 100 ↔ ([] : List String) = []) :=
  ⟨C10_perfect_iff_silent.2 modelStandards (some "male"),
   C10_perfect_iff_silent.1 modelStandards [] (some "male") 100 []
     (C10_perfect_iff_silent.2 modelStandards (some "male"))⟩

/-- C3: adding a key that has no entry in the (spec-modelled) standards
store — with any value — or adding any fresh key with a null value, leaves
the returned (score, warnings) of `calculate_health_score` unchanged.
The store must carry the blood-pressure, glucose and LDL keys (as the
repository's configuration does) for the first part, since the
blood-pressure and compound-risk sections read those keys regardless of
the store. -/
theorem C3_unknown_and_null :
    (∀ (vs : List (String × Raw)) (g : Option String) (k : String) (v : Raw),
       List.lookup k modelStandards = none → List.lookup k vs = none →
       calculate_health_score modelStandards (vs ++ [(k, v)]) g =
         calculate_health_score modelStandards vs g) ∧
    ∀ (std : Standards) (vs : List (String × Raw)) (g : Option String) (k : String),
      List.lookup k vs = none →
      calculate_health_score std (vs ++ [(k, Raw.null)]) g =
        calculate_health_score std vs g := by
  constructor
  · intro vs g k v hstd hfresh
    have hke : ∀ k2 : String, List.lookup k2 modelStandards ≠ none → k2 ≠ k := by
      intro k2 hk2 he
      subst he
      exact hk2 hstd
    have h1 : processAll modelStandards (genderKey g) [(k, v)] = some (0, []) := by
      simp [processAll, pm_unknown _ _ _ _ hstd]
    have hpa : processAll modelStandards (genderKey g) (vs ++ [(k, v)]) =
        processAll modelStandards (genderKey g) vs := by
      rw [pa_append, h1]
      cases processAll modelStandards (genderKey g) vs with
      | none => rfl
      | some dw => simp
    have hnum : ∀ k2 : String, List.lookup k2 modelStandards ≠ none →
        numOf (vs ++ [(k, v)]) k2 = numOf vs k2 := by
      intro k2 hk2
      exact numOf_snoc_ne vs k k2 v (hke k2 hk2)
    have hbp : bpEval (vs ++ [(k, v)]) = bpEval vs := by
      unfold bpEval
      rw [hnum "blood_pressure_systolic" (by decide),
          hnum "blood_pressure_diastolic" (by decide)]
    have hcomp : compoundEval (vs ++ [(k, v)]) = compoundEval vs := by
      unfold compoundEval hcOf
      rw [hnum "glucose" (by decide), hnum "ldl_cholesterol" (by decide),
          hnum "blood_pressure_systolic" (by decide),
          hnum "blood_pressure_diastolic" (by decide)]
    simp only [calculate_health_score, hpa, hbp, hcomp]
  · intro std vs g k hfresh
    have h1 : processAll std (genderKey g) [(k, Raw.null)] = some (0, []) := by
      simp [processAll, pm_null]
    have hpa : processAll std (genderKey g) (vs ++ [(k, Raw.null)]) =
        processAll std (genderKey g) vs := by
      rw [pa_append, h1]
      cases processAll std (genderKey g) vs with
      | none => rfl
      | some dw => simp
    have hnum := numOf_snoc_null vs k
    have hbp : bpEval (vs ++ [(k, Raw.null)]) = bpEval vs := by
      unfold bpEval
      rw [hnum "blood_pressure_systolic", hnum "blood_pressure_diastolic"]
    have hcomp : compoundEval (vs ++ [(k, Raw.null)]) = compoundEval vs := by
      unfold compoundEval hcOf
      rw [hnum "glucose", hnum "ldl_cholesterol",
          hnum "blood_pressure_systolic", hnum "blood_pressure_diastolic"]
    simp only [calculate_health_score, hpa, hbp, hcomp]

/-- C3 witness: a concrete unknown key and a concrete null-valued key each
leave the result unchanged. -/
theorem C3_witness :
    calculate_health_score modelStandards
        ([("glucose", Raw.num 90)] ++ [("foo", Raw.num 5)]) none =
      calculate_health_score modelStandards [("glucose", Raw.num 90)] none ∧
    calculate_health_score modelStandards
        ([("glucose", Raw.num 90)] ++ [("bar", Raw.null)]) none =
      calculate_health_score modelStandards [("glucose", Raw.num 90)] none :=
  ⟨C3_unknown_and_null.1 [("glucose", Raw.num 90)] none "foo" (Raw.num 5) rfl rfl,
   C3_unknown_and_null.2 modelStandards [("glucose", Raw.num 90)] none "bar" rfl⟩

/-- C7: deductions are monotone — extending a vital-stats mapping with any
additional key/value (fresh, as in a Python dict) can only lower the
returned score, whenever both calls return. -/
theorem C7_monotonic :
    ∀ (std : Standards) (vs : List (String × Raw)) (g : Option String)
      (k : String) (v : Raw) (s : ℤ) (w : List String) (s2 : ℤ) (w2 : List String),
      List.lookup k vs = none →
      calculate_health_score std vs g = some (s, w) →
      calculate_health_score std (vs ++ [(k, v)]) g = some (s2, w2) →
      s2 ≤ s := by
  intro std vs g k v s w s2 w2 hfresh h1 h2
  cases hpa : processAll std (genderKey g) vs with
  | none => rw [calc_none _ _ _ hpa] at h1; exact Option.noConfusion h1
  | some dw =>
    rw [calc_some _ _ _ _ hpa] at h1
    cases hpm : processMetric std (genderKey g) (k, v) with
    | none =>
      have hz : processAll std (genderKey g) (vs ++ [(k, v)]) = none := by
        rw [pa_append, hpa]
        simp [processAll, hpm]
      rw [calc_none _ _ _ hz] at h2
      exact Option.noConfusion h2
    | some dk =>
      have hext : processAll std (genderKey g) (vs ++ [(k, v)]) =
          some (dw.1 + dk.1, dw.2 ++ dk.2) := by
        rw [pa_append, hpa]
        simp [processAll, hpm]
      rw [calc_some _ _ _ _ hext] at h2
      simp only [Option.some.injEq, Prod.mk.injEq] at h1 h2
      obtain ⟨hs1, -⟩ := h1
      obtain ⟨hs2, -⟩ := h2
      subst hs1
      subst hs2
      have hdk := (pm_inv _ _ _ _ hpm).1
      have href := numOf_snoc_refines vs k v hfresh
      have hbp : (bpEval vs).1 ≤ (bpEval (vs ++ [(k, v)])).1 :=
        bp_mono _ _ _ _ (href _) (href _)
      have hcw : (compoundEval vs).1 ≤ (compoundEval (vs ++ [(k, v)])).1 :=
        comp_mono _ _ href
      unfold clampScore
      split_ifs <;> omega

/-- C7 witness: adding an abnormal glucose value to the empty mapping
lowers the score from 100 to 90. -/
theorem C7_witness : (90 : ℤ) ≤ 100 :=
  C7_monotonic modelStandards [] none "glucose" (Raw.num 200) 100 [] 90
    ["血糖 數值為 A 級 (200)", "符合「一高」條件，額外扣 5 分。"] rfl rfl rfl

/-- C5: blood pressure gets exactly the single most severe matching tier.
With both values present the deduction is 15 iff systolic ≥ 160 or
diastolic ≥ 100, else 10 iff ≥ 140 / ≥ 90, else 5 iff ≥ 130 / ≥ 80, else
0, with exactly one warning when a tier fires; with only one value present
the same thresholds apply to that value alone with its own wording; and
systolic 165 with diastolic 70 yields the single grade-C deduction of
15. -/
theorem C5_blood_pressure :
    (∀ s d : ℚ,
       (bpCore (some s) (some d)).1 =
         (if 160 ≤ s ∨ 100 ≤ d then 15
          else if 140 ≤ s ∨ 90 ≤ d then 10
          else if 130 ≤ s ∨ 80 ≤ d then 5 else 0) ∧
       (bpCore (some s) (some d)).2.length =
         (if (bpCore (some s) (some d)).1 = 0 then 0 else 1)) ∧
    (∀ s : ℚ,
       (bpCore (some s) none).1 =
         (if 160 ≤ s then 15 else if 140 ≤ s then 10 else if 130 ≤ s then 5 else 0) ∧
       (bpCore (some s) none).2.length =
         (if (bpCore (some s) none).1 = 0 then 0 else 1)) ∧
    (∀ d : ℚ,
       (bpCore none (some d)).1 =
         (if 100 ≤ d then 15 else if 90 ≤ d then 10 else if 80 ≤ d then 5 else 0) ∧
       (bpCore none (some d)).2.length =
         (if (bpCore none (some d)).1 = 0 then 0 else 1)) ∧
    bpEval [("blood_pressure_systolic", Raw.num 165),
            ("blood_pressure_diastolic", Raw.num 70)] =
      (15, ["血壓數值為 C 級 (165/70 mmHg)"]) := by
  refine ⟨fun s d => ?_, fun s => ?_, fun d => ?_, rfl⟩ <;>
    constructor <;> simp only [bpCore] <;> split_ifs <;> simp_all

/-- C6: the compound-risk deduction is 5 per satisfied condition (glucose
≥ 100, LDL ≥ 130, systolic ≥ 130 or diastolic ≥ 80 — counted from the
values, not from the blood-pressure grade), carries exactly one summary
warning when the count is positive, and is added on top of the per-metric
and blood-pressure deductions before the floor-1 clamp; on the spec's
stacking example the total is 100 − 5 − 5 − 5 − 15 = 70. -/
theorem C6_compound :
    (∀ vs : List (String × Raw),
       (compoundEval vs).1 = 5 * (hcOf vs : ℤ) ∧ hcOf vs ≤ 3 ∧
       (compoundEval vs).2.length = (if hcOf vs = 0 then 0 else 1)) ∧
    (∀ (std : Standards) (vs : List (String × Raw)) (g : Option String)
       (dw : ℤ × List String),
       processAll std (genderKey g) vs = some dw →
       calculate_health_score std vs g =
         some (clampScore (100 - dw.1 - (bpEval vs).1 - (compoundEval vs).1),
               dw.2 ++ (bpEval vs).2 ++ (compoundEval vs).2)) ∧
    hcOf [("glucose", Raw.num 105), ("ldl_cholesterol", Raw.num 135),
          ("blood_pressure_systolic", Raw.num 135)] = 3 ∧
    calculate_health_score c6Store
        [("glucose", Raw.num 105), ("ldl_cholesterol", Raw.num 135),
         ("blood_pressure_systolic", Raw.num 135)] none =
      some (70, ["血糖 數值為 A 級 (105)", "低密度脂蛋白膽固醇 數值為 A 級 (135)",
                 "血壓收縮壓為 A 級 (135 mmHg)", "符合「三高」條件，額外扣 15 分。"]) := by
  refine ⟨fun vs => ⟨comp_fst vs, hc_le_three vs, ?_⟩, fun std vs g dw h => calc_some std vs g dw h, rfl, rfl⟩
  unfold compoundEval
  have h3 := hc_le_three vs
  generalize hcOf vs = n at *
  have h4 : n = 0 ∨ n = 1 ∨ n = 2 ∨ n = 3 := by omega
  rcases h4 with rfl | rfl | rfl | rfl <;> norm_num

/-- C6 witness: additivity instantiated on a single elevated glucose
reading. -/
theorem C6_witness :
    calculate_health_score c6Store [("glucose", Raw.num 105)] none =
      some (clampScore (100 - 5 - (bpEval [("glucose", Raw.num 105)]).1 -
              (compoundEval [("glucose", Raw.num 105)]).1),
            ["血糖 數值為 A 級 (105)"] ++ (bpEval [("glucose", Raw.num 105)]).2 ++
              (compoundEval [("glucose", Raw.num 105)]).2) :=
  C6_compound.2.1 c6Store [("glucose", Raw.num 105)] none
    (5, ["血糖 數值為 A 級 (105)"]) rfl

/-- C2 counterexample: with female grade bands covering only [20, 30] and
generic range `0-10`, the value 15 falls in no band, yet the grade `"A"`
set earlier by the generic range check persists and 5 points are
deducted — the claim's "a numeric value falling inside no gender band
yields grade none and no deduction" (score 100, no warnings) is false. -/
theorem C2_counterexample :
    calculate_health_score c2Store [("mx", Raw.num 15)] none =
      some (95, ["mx 數值為 A 級 (15)"]) ∧ (95 : ℤ) ≠ 100 :=
  ⟨rfl, by decide⟩

/-- C2 amended: when an entry has grade bands for the caller's gender,
the legacy hard-coded thresholds are never consulted and the first
declared band containing the value decides the grade, overriding the
generic check; but when no band contains the value, the grade of the
generic reference-expression range check (grade "A" if out of range)
persists and produces its deduction, instead of grade none. -/
theorem C2_amended :
    ∀ (std : Standards) (g : Option String) (k : String) (e : StandardEntry)
      (v : Raw) (nv : ℚ) (g0 : Option String),
      List.lookup k std = some e →
      v ≠ Raw.null →
      ¬(strContains (refFor e (genderKey g)) "(-)" = true ∧ v ≠ Raw.str "(-)") →
      get_numeric_value v = some nv →
      genericGrade (refFor e (genderKey g)) nv = some g0 →
      (bandsFor e (genderKey g)).isEmpty = false →
      pickGrade e (genderKey g) k nv g0 =
        optOr (firstBand (bandsFor e (genderKey g)) nv) g0 ∧
      processMetric std (genderKey g) (k, v) =
        some (gradeOut (dispName e k) v
          (optOr (firstBand (bandsFor e (genderKey g)) nv) g0)) := by
  intro std g k e v nv g0 hl hv hq hnv hgg hb
  have hpick : pickGrade e (genderKey g) k nv g0 =
      optOr (firstBand (bandsFor e (genderKey g)) nv) g0 := by
    unfold pickGrade
    rw [if_neg (by simp [hb])]
  refine ⟨hpick, ?_⟩
  cases v with
  | null => exact absurd rfl hv
  | num q =>
    simp only [processMetric, hl, hnv, hgg, hpick, if_neg hq]
  | str s =>
    simp only [processMetric, hl, hnv, hgg, hpick, if_neg hq]

/-- C2 witness: with the value 25 inside the female band [20, 30], the
band's grade decides (here the same label "A"), the legacy table is never
reached, and the metric contributes the band grade's deduction. -/
theorem C2_witness :
    pickGrade ⟨none, some "0-10", none, none, [], [("A", 20, 30)]⟩ (genderKey none)
        "mx" 25 (some "A") =
      optOr (firstBand [("A", (20 : ℚ), (30 : ℚ))] 25) (some "A") ∧
    processMetric c2Store (genderKey none) ("mx", Raw.num 25) =
      some (gradeOut "mx" (Raw.num 25) (optOr (firstBand [("A", (20 : ℚ), (30 : ℚ))] 25) (some "A"))) :=
  C2_amended c2Store none "mx" ⟨none, some "0-10", none, none, [], [("A", 20, 30)]⟩
    (Raw.num 25) 25 (some "A") rfl (by decide) (by decide) rfl rfl rfl

/-- C4 counterexample: the raw value `"negative"` normalizes to the
negative token (rank 0), yet the qualitative branch compares the raw
value with the literal `"(-)"` and deducts 5 with a warning — the claim
that any raw spelling normalizing to negative incurs no deduction is
false. -/
theorem C4_counterexample :
    get_numeric_value (Raw.str "negative") = some 0 ∧
    calculate_health_score modelStandards [("HBsAg", Raw.str "negative")] none =
      some (95, ["B型肝炎表面抗原 超出正常範圍 (negative)"]) ∧ (95 : ℤ) ≠ 100 :=
  ⟨rfl, rfl, by decide⟩

/-- C4 amended: for a metric whose gender-selected, stripped reference
expression contains the expected-negative marker `(-)`, the deduction of
5 with its single warning fires exactly when the raw value differs from
the exact string `"(-)"` — the comparison is on the raw value, not the
normalized one, so spellings like `"negative"`, `"負"` or `"-"` do incur
the deduction — and when it fires, processing of the metric stops there
with no numeric grading. -/
theorem C4_amended :
    ∀ (std : Standards) (g : Option String) (k : String) (e : StandardEntry) (v : Raw),
      List.lookup k std = some e →
      v ≠ Raw.null →
      strContains (refFor e (genderKey g)) "(-)" = true →
      v ≠ Raw.str "(-)" →
      processMetric std (genderKey g) (k, v) =
        some (5, [dispName e k ++ " 超出正常範圍 (" ++ rawRepr v ++ ")"]) := by
  intro std g k e v hl hv hm hne
  cases v with
  | null => exact absurd rfl hv
  | num q => simp only [processMetric, hl, if_pos (And.intro hm hne)]
  | str s => simp only [processMetric, hl, if_pos (And.intro hm hne)]

/-- C4 witness: the deduction at the raw value `"negative"` for the
modelled HBsAg entry. -/
theorem C4_witness :
    processMetric modelStandards (genderKey none) ("HBsAg", Raw.str "negative") =
      some (5, ["B型肝炎表面抗原 超出正常範圍 (negative)"]) :=
  C4_amended modelStandards none "HBsAg"
    ⟨some "B型肝炎表面抗原", some "(-)", none, none, [], []⟩
    (Raw.str "negative") rfl (by decide) rfl (by decide)

/-- C8: the value normalizer maps numbers to themselves; after trimming
and lowercasing it maps the negative tokens (負, negative, the
parenthesized minus marker, and the bare minus) to 0, the plus-slash-minus
token and the single plus to rank 1, the double and triple plus to rank 2,
the quadruple plus to rank 3; any other raw string goes to its decimal
parse when one exists and to Missing otherwise (the rules applied in this
order); and `None` goes to Missing.  It is a total function — it never
throws. -/
theorem C8_normalizer :
    (∀ q : ℚ, get_numeric_value (Raw.num q) = some q) ∧
    (∀ s : String,
      (pyLower (pyStrip s) = "負" ∨ pyLower (pyStrip s) = "negative" ∨
       pyLower (pyStrip s) = "(-)" ∨ pyLower (pyStrip s) = "-") →
      get_numeric_value (Raw.str s) = some 0) ∧
    (∀ s : String,
      ¬(pyLower (pyStrip s) = "負" ∨ pyLower (pyStrip s) = "negative" ∨
        pyLower (pyStrip s) = "(-)" ∨ pyLower (pyStrip s) = "-") →
      (pyLower (pyStrip s) = "+/-" ∨ pyLower (pyStrip s) = "+") →
      get_numeric_value (Raw.str s) = some 1) ∧
    (∀ s : String,
      ¬(pyLower (pyStrip s) = "負" ∨ pyLower (pyStrip s) = "negative" ∨
        pyLower (pyStrip s) = "(-)" ∨ pyLower (pyStrip s) = "-") →
      ¬(pyLower (pyStrip s) = "+/-" ∨ pyLower (pyStrip s) = "+") →
      (pyLower (pyStrip s) = "++" ∨ pyLower (pyStrip s) = "+++") →
      get_numeric_value (Raw.str s) = some 2) ∧
    (∀ s : String,
      ¬(pyLower (pyStrip s) = "負" ∨ pyLower (pyStrip s) = "negative" ∨
        pyLower (pyStrip s) = "(-)" ∨ pyLower (pyStrip s) = "-") →
      ¬(pyLower (pyStrip s) = "+/-" ∨ pyLower (pyStrip s) = "+") →
      ¬(pyLower (pyStrip s) = "++" ∨ pyLower (pyStrip s) = "+++") →
      pyLower (pyStrip s) = "++++" →
      get_numeric_value (Raw.str s) = some 3) ∧
    (∀ s : String,
      ¬(pyLower (pyStrip s) = "負" ∨ pyLower (pyStrip s) = "negative" ∨
        pyLower (pyStrip s) = "(-)" ∨ pyLower (pyStrip s) = "-") →
      ¬(pyLower (pyStrip s) = "+/-" ∨ pyLower (pyStrip s) = "+") →
      ¬(pyLower (pyStrip s) = "++" ∨ pyLower (pyStrip s) = "+++") →
      pyLower (pyStrip s) ≠ "++++" →
      get_numeric_value (Raw.str s) = pyFloat s) ∧
    get_numeric_value Raw.null = none := by
  refine ⟨fun q => rfl, ?_, ?_, ?_, ?_, ?_, rfl⟩
  · intro s h
    simp only [get_numeric_value, if_pos h]
  · intro s h1 h2
    simp only [get_numeric_value, if_neg h1, if_pos h2]
  · intro s h1 h2 h3
    simp only [get_numeric_value, if_neg h1, if_neg h2, if_pos h3]
  · intro s h1 h2 h3 h4
    simp only [get_numeric_value, if_neg h1, if_neg h2, if_neg h3, if_pos h4]
  · intro s h1 h2 h3 h4
    simp only [get_numeric_value, if_neg h1, if_neg h2, if_neg h3, if_neg h4]

/-- C8 witness: one representative of each normalization rule, evaluated
concretely. -/
theorem C8_witness :
    get_numeric_value (Raw.str " Negative ") = some 0 ∧
    get_numeric_value (Raw.str "+/-") = some 1 ∧
    get_numeric_value (Raw.str "+++") = some 2 ∧
    get_numeric_value (Raw.str "++++") = some 3 ∧
    get_numeric_value (Raw.str "105.5") = pyFloat "105.5" ∧
    get_numeric_value (Raw.str "abc") = pyFloat "abc" :=
  ⟨C8_normalizer.2.1 " Negative " (by decide),
   C8_normalizer.2.2.1 "+/-" (by decide) (by decide),
   C8_normalizer.2.2.2.1 "+++" (by decide) (by decide) (by decide),
   C8_normalizer.2.2.2.2.1 "++++" (by decide) (by decide) (by decide) (by decide),
   C8_normalizer.2.2.2.2.2.1 "105.5" (by decide) (by decide) (by decide) (by decide),
   C8_normalizer.2.2.2.2.2.1 "abc" (by decide) (by decide) (by decide) (by decide)⟩

/-- C9: the response extractor tries whole-text parsing, then the interior
of an explicitly `json`-labelled fenced block, then the first brace span
tolerant of one nesting level, returning the first success and null when
everything fails; each failure falls through to the next strategy.  The
spec's four examples evaluate as stated (the unlabelled fence and the
prose-embedded object are both recovered by the brace-span strategy). -/
theorem C9_extractor :
    (∀ (t : String) (j : Json), t ≠ "" → jsonLoads t = some j →
       extract_json_from_response t = some j) ∧
    (∀ (t inner : String) (j : Json), t ≠ "" → jsonLoads t = none →
       fenceScan t.toList = some inner → jsonLoads inner = some j →
       extract_json_from_response t = some j) ∧
    (∀ t : String, t ≠ "" → jsonLoads t = none → fenceScan t.toList = none →
       extract_json_from_response t = braceStep t) ∧
    (∀ (t inner : String), t ≠ "" → jsonLoads t = none →
       fenceScan t.toList = some inner → jsonLoads inner = none →
       extract_json_from_response t = braceStep t) ∧
    (∀ t : String, braceSearch t.toList = none → braceStep t = none) ∧
    extract_json_from_response "\x7b\"a\":1\x7d" = some (Json.obj [("a", Json.num 1)]) ∧
    extract_json_from_response "```\n\x7b\"a\":1\x7d\n```" = some (Json.obj [("a", Json.num 1)]) ∧
    extract_json_from_response "```json\n\x7b\"a\": 1\x7d\n```" = some (Json.obj [("a", Json.num 1)]) ∧
    extract_json_from_response "here is data: \x7b\"a\":1\x7d thanks" = some (Json.obj [("a", Json.num 1)]) ∧
    extract_json_from_response "no data here" = none ∧
    extract_json_from_response "" = none := by
  refine ⟨?_, ?_, ?_, ?_, ?_, rfl, rfl, rfl, rfl, rfl, rfl⟩
  · intro t j ht hj
    simp only [extract_json_from_response, if_neg ht, hj]
  · intro t inner j ht hj hf hi
    simp only [extract_json_from_response, if_neg ht, hj, hf, hi]
  · intro t ht hj hf
    simp only [extract_json_from_response, if_neg ht, hj, hf]
  · intro t inner ht hj hf hi
    simp only [extract_json_from_response, if_neg ht, hj, hf, hi]
  · intro t hb
    simp only [braceStep, hb]

/-- C9 witness: the first strategy instantiated on a fresh object. -/
theorem C9_witness :
    extract_json_from_response "\x7b\"b\":2\x7d" = some (Json.obj [("b", Json.num 2)]) :=
  C9_extractor.1 "\x7b\"b\":2\x7d" (Json.obj [("b", Json.num 2)]) (by decide) rfl

end HealthGuide
